import Mathlib

/-!
Shallow embedding of the metric-normalization utilities of the
MAD (Mining Anomaly Detector) backend:

* `safe_round`    — `src/backend/validate_models.py`, lines 57-106
* `safe_round_v1` — `src/backend/quick_debug.py`,     lines 55-64
* `safe_round_v2` — `src/backend/quick_debug.py`,     lines 66-106

Python floats are idealized as `ExtFloat`: an exact rational together with
the IEEE special values NaN and ±infinity (binary representation error is
abstracted away; `round` acts exactly on the rational).  Python's `round`
on a float rounds to the nearest multiple of `10^-decimals` with ties to
even, which `rhe10` implements on rationals.

Values reaching the normalizer are modelled by the inductive `PyVal`,
one constructor per runtime shape the source distinguishes:
`None`, Python `int` / `float`, a NumPy scalar (has `.item()`),
a NumPy `ndarray` (shape plus flattened data), a torch tensor
(has `.item()`, `.cpu()` and `.numpy()`), a string (carrying the result
of Python's `float(str)` parse), and an arbitrary non-convertible object.

Exceptions are explicit: partial Python primitives return
`Except PyExc ExtFloat`, a `try/except (ValueError, TypeError)` block
becomes a match that falls through exactly on those two kinds, and a
branch the source does not guard propagates the error.  Notably
`float(n)` on a Python `int` raises `OverflowError` when the integer
exceeds the double range (threshold idealized as `2^1024`), which no
handler in `safe_round` catches.
-/
namespace MAD

/-- Idealized Python float: an exact rational, NaN, or a signed infinity. -/
inductive ExtFloat where
  | fin (q : ℚ)
  | nan
  | inf (neg : Bool)
deriving DecidableEq, Repr

instance : Inhabited ExtFloat := ⟨.fin 0⟩

instance {ε α : Type} [DecidableEq ε] [DecidableEq α] : DecidableEq (Except ε α)
  | .ok a, .ok b =>
    if h : a = b then .isTrue (by rw [h]) else .isFalse (fun c => h (Except.ok.inj c))
  | .error a, .error b =>
    if h : a = b then .isTrue (by rw [h]) else .isFalse (fun c => h (Except.error.inj c))
  | .ok _, .error _ => .isFalse Except.noConfusion
  | .error _, .ok _ => .isFalse Except.noConfusion

/-- Python exception kinds relevant to the normalizers. -/
inductive PyExc where
  | valueError
  | typeError
  | overflowError
deriving DecidableEq, Repr

/-- Round a rational to the nearest integer, ties to even
(the convention of Python's built-in `round`). -/
def rhe (q : ℚ) : ℤ :=
  let f := ⌊q⌋
  let r := q - f
  if r < 1 / 2 then f
  else if 1 / 2 < r then f + 1
  else if f % 2 = 0 then f else f + 1

/-- `round(q, d)`: round to `d` decimal digits, ties to even.
`d` is an arbitrary integer, as Python's `ndigits` may be negative. -/
def rhe10 (q : ℚ) (d : ℤ) : ℚ :=
  (rhe (q * 10 ^ d) : ℚ) / 10 ^ d

/-- Python's `round(x, d)` on an idealized float: NaN and infinities pass
through, finite values round to `d` decimal digits. -/
def ExtFloat.roundTo : ExtFloat → ℤ → ExtFloat
  | .fin q, d => .fin (rhe10 q d)
  | .nan, _ => .nan
  | .inf b, _ => .inf b

/-- IEEE addition on idealized floats (used by `np.mean`): NaN absorbs,
opposite infinities give NaN, overflow of finite sums is abstracted away. -/
def ExtFloat.add : ExtFloat → ExtFloat → ExtFloat
  | .nan, _ => .nan
  | _, .nan => .nan
  | .inf b, .inf c => if b = c then .inf b else .nan
  | .inf b, .fin _ => .inf b
  | .fin _, .inf c => .inf c
  | .fin a, .fin b => .fin (a + b)

/-- Sum of a list of idealized floats (`np.sum` of the flattened data;
empty sum is `0.0`). -/
def eSum (l : List ExtFloat) : ExtFloat :=
  l.foldr ExtFloat.add (.fin 0)

/-- Division of an idealized float by a natural number. -/
def ExtFloat.divNat : ExtFloat → ℕ → ExtFloat
  | .fin q, n => .fin (q / n)
  | .nan, _ => .nan
  | .inf b, _ => .inf b

/-- `np.mean` over flattened data: sum divided by the element count;
the mean of an empty array is NaN (NumPy warns but returns `nan`). -/
def eMean (l : List ExtFloat) : ExtFloat :=
  if l.length = 0 then .nan else (eSum l).divNat l.length

/-- Runtime values that can reach the normalizers, one constructor per
shape the Python code distinguishes by `isinstance`/`hasattr` probing.
An `ndarray` carries its shape (a zero-dimensional array has shape `[]`)
and its flattened data; NumPy guarantees `shape.prod = data.length`.
A `pyStr` carries the result of Python's `float(str)` parse: `some x`
when the contents parse as a float literal, `none` when parsing fails. -/
inductive PyVal where
  | pyNone
  | pyInt (n : ℤ)
  | pyFloat (x : ExtFloat)
  | npScalar (x : ExtFloat)
  | ndarray (shape : List ℕ) (data : List ExtFloat)
  | tensor (data : List ExtFloat)
  | pyStr (parsed : Option ExtFloat)
  | obj
deriving DecidableEq, Repr

/-- The double range bound: `float(n)` on a Python `int` raises
`OverflowError` when `|n|` reaches `2^1024` (the IEEE-754 binary64
overflow threshold, idealized to this exact cutoff). -/
def floatMaxBound : ℕ := 2 ^ 1024

/-- `hasattr(value, 'item')`: true for NumPy scalars, NumPy arrays and
torch tensors. -/
def hasItem : PyVal → Bool
  | .npScalar _ => true
  | .ndarray _ _ => true
  | .tensor _ => true
  | _ => false

/-- `hasattr(value, 'cpu') and hasattr(value, 'numpy')`: true exactly for
torch tensors. -/
def hasCpuNumpy : PyVal → Bool
  | .tensor _ => true
  | _ => false

/-- `value.item()`: succeeds exactly when the value holds a single
element.  NumPy raises `ValueError` ("can only convert an array of size 1
to a Python scalar") otherwise; a torch tensor's failure is modelled with
the same catchable kind, matching the `except (ValueError, TypeError)`
handler the source wraps around this call. -/
def item : PyVal → Except PyExc ExtFloat
  | .npScalar x => .ok x
  | .ndarray shape data => if shape.prod = 1 then .ok data.headI else .error .valueError
  | .tensor data => if data.length = 1 then .ok data.headI else .error .valueError
  | _ => .error .typeError

/-- Python's `float(value)` builtin: ints within double range convert
exactly (beyond it, `OverflowError`); floats and NumPy scalars pass
through; size-1 arrays/tensors yield their element; strings yield their
parse result or `ValueError`; everything else raises `TypeError`. -/
def toFloat : PyVal → Except PyExc ExtFloat
  | .pyNone => .error .typeError
  | .pyInt n => if n.natAbs < floatMaxBound then .ok (.fin n) else .error .overflowError
  | .pyFloat x => .ok x
  | .npScalar x => .ok x
  | .ndarray shape data => if shape.prod = 1 then .ok data.headI else .error .typeError
  | .tensor data => if data.length = 1 then .ok data.headI else .error .valueError
  | .pyStr p => match p with
    | some x => .ok x
    | none => .error .valueError
  | .obj => .error .typeError

/-- Is this exception caught by `except (ValueError, TypeError)`? -/
def catchableVT : PyExc → Bool
  | .valueError => true
  | .typeError => true
  | .overflowError => false

/-- Lines 81-85 of `validate_models.py`: the `hasattr(value, 'item')`
branch, whose body is wrapped in `try/except (ValueError, TypeError)`:
on a catchable failure control falls through to `next`; any other
exception propagates. -/
def itemBranch (v : PyVal) (d : ℤ) (next : Except PyExc ExtFloat) :
    Except PyExc ExtFloat :=
  if hasItem v then
    match item v with
    | .ok x => .ok (x.roundTo d)
    | .error e => if catchableVT e then next else .error e
  else next

/-- Lines 87-89: the `isinstance(value, (int, float))` branch.  It calls
`float(value)` with no surrounding `try`, so an `OverflowError` on an
out-of-range int propagates to the caller. -/
def numberBranch (v : PyVal) (d : ℤ) (next : Except PyExc ExtFloat) :
    Except PyExc ExtFloat :=
  match v with
  | .pyInt n => (toFloat (.pyInt n)).map (fun x => x.roundTo d)
  | .pyFloat x => .ok (x.roundTo d)
  | _ => next

/-- Lines 92-100: the torch-tensor branch (`hasattr 'cpu'` and
`hasattr 'numpy'`): `arr = value.cpu().numpy()`, then a size-1 array
yields its element and any other yields `np.mean(arr)`. -/
def tensorBranch (v : PyVal) (d : ℤ) (next : Except PyExc ExtFloat) :
    Except PyExc ExtFloat :=
  match v with
  | .tensor data =>
    if data.length = 1 then .ok (data.headI.roundTo d)
    else .ok ((eMean data).roundTo d)
  | _ => next

/-- Lines 102-106: the final fallback `try: return round(float(value),
decimals) except (ValueError, TypeError): return 0.0`. -/
def fallbackBranch (v : PyVal) (d : ℤ) : Except PyExc ExtFloat :=
  match toFloat v with
  | .ok x => .ok (x.roundTo d)
  | .error e => if catchableVT e then .ok (.fin 0) else .error e

/-- `safe_round` of `src/backend/validate_models.py` (lines 57-106):
`None` maps to `0.0`; an `ndarray` maps to `0.0` (empty), its rounded
single element (size 1), or its rounded mean; any other value runs
through the `.item()` branch, the `isinstance(int, float)` branch, the
tensor branch and the fallback in the source's order. -/
def safe_round (value : PyVal) (decimals : ℤ) : Except PyExc ExtFloat :=
  match value with
  | .pyNone => .ok (.fin 0)
  | .ndarray shape data =>
    if shape.prod = 0 then .ok (.fin 0)
    else if shape.prod = 1 then
      (item (.ndarray shape data)).map (fun x => x.roundTo decimals)
    else .ok ((eMean data).roundTo decimals)
  | v =>
    itemBranch v decimals
      (numberBranch v decimals
        (tensorBranch v decimals
          (fallbackBranch v decimals)))

/-- `safe_round_v1` of `src/backend/quick_debug.py` (lines 55-64), the
"original" naive normalizer: `None` maps to `0.0`; any value with an
`.item()` attribute is converted via `round(float(value.item()),
decimals)` with NO exception handler, so an `.item()` failure on a
multi-element value propagates; plain numbers round; anything else
maps to `0.0`. -/
def safe_round_v1 (value : PyVal) (decimals : ℤ) : Except PyExc ExtFloat :=
  match value with
  | .pyNone => .ok (.fin 0)
  | v =>
    if hasItem v then (item v).map (fun x => x.roundTo decimals)
    else
      match v with
      | .pyInt n => (toFloat (.pyInt n)).map (fun x => x.roundTo decimals)
      | .pyFloat x => .ok (x.roundTo decimals)
      | _ => .ok (.fin 0)

/-- `safe_round_v2` of `src/backend/quick_debug.py` (lines 66-106),
written out independently of `safe_round` to mirror its own source text:
`None`; the `np.ndarray` size dispatch; the guarded `.item()` branch;
the `isinstance(value, (int, float))` branch; the torch `cpu`/`numpy`
branch; the guarded `float(value)` fallback. -/
def safe_round_v2 (value : PyVal) (decimals : ℤ) : Except PyExc ExtFloat :=
  match value with
  | .pyNone => .ok (.fin 0)
  | .ndarray shape data =>
    if shape.prod = 0 then .ok (.fin 0)
    else if shape.prod = 1 then
      (item (.ndarray shape data)).map (fun x => x.roundTo decimals)
    else .ok ((eMean data).roundTo decimals)
  | v =>
    if hasItem v then
      match item v with
      | .ok x => .ok (x.roundTo decimals)
      | .error e =>
        if catchableVT e then
          match v with
          | .pyInt n => (toFloat (.pyInt n)).map (fun x => x.roundTo decimals)
          | .pyFloat x => .ok (x.roundTo decimals)
          | w =>
            match w with
            | .tensor data =>
              if data.length = 1 then .ok (data.headI.roundTo decimals)
              else .ok ((eMean data).roundTo decimals)
            | u =>
              match toFloat u with
              | .ok x => .ok (x.roundTo decimals)
              | .error e => if catchableVT e then .ok (.fin 0) else .error e
        else .error e
    else
      match v with
      | .pyInt n => (toFloat (.pyInt n)).map (fun x => x.roundTo decimals)
      | .pyFloat x => .ok (x.roundTo decimals)
      | w =>
        match w with
        | .tensor data =>
          if data.length = 1 then .ok (data.headI.roundTo decimals)
          else .ok ((eMean data).roundTo decimals)
        | u =>
          match toFloat u with
          | .ok x => .ok (x.roundTo decimals)
          | .error e => if catchableVT e then .ok (.fin 0) else .error e

/-- Inputs on which `safe_round` cannot hit the unguarded `OverflowError`:
every value except a Python `int` beyond the double range. -/
def intInRange : PyVal → Prop
  | .pyInt n => n.natAbs < floatMaxBound
  | _ => True

/-- The numeric content of the value is finite and usable: no NaN or
infinite component, ints within double range, tensors non-empty (the
mean of an empty tensor is NaN), and array shape consistent with its
data (the NumPy invariant). -/
def finiteContent : PyVal → Prop
  | .pyNone => True
  | .pyInt n => n.natAbs < floatMaxBound
  | .pyFloat x => ∃ q, x = .fin q
  | .npScalar x => ∃ q, x = .fin q
  | .ndarray shape data => shape.prod = data.length ∧ ∀ x ∈ data, ∃ q, x = .fin q
  | .tensor data => data ≠ [] ∧ ∀ x ∈ data, ∃ q, x = .fin q
  | .pyStr p => ∀ x ∈ p, ∃ q, x = .fin q
  | .obj => True

theorem rhe_intCast (m : ℤ) : rhe (m : ℚ) = m := by
  simp only [rhe, Int.floor_intCast]
  rw [if_pos]
  rw [sub_self]
  norm_num

theorem rhe_of_lt_half {q : ℚ} {m : ℤ} (h1 : ⌊q⌋ = m) (h2 : q - m < 1 / 2) :
    rhe q = m := by
  simp only [rhe]
  rw [h1, if_pos h2]

theorem rhe_of_half_lt {q : ℚ} {m : ℤ} (h1 : ⌊q⌋ = m) (h2 : 1 / 2 < q - m) :
    rhe q = m + 1 := by
  simp only [rhe]
  rw [h1, if_neg (by linarith), if_pos h2]

theorem rhe_tie_even {q : ℚ} {m : ℤ} (h1 : ⌊q⌋ = m) (h2 : q - m = 1 / 2)
    (h3 : m % 2 = 0) : rhe q = m := by
  simp only [rhe]
  rw [h1, if_neg (by rw [h2]; exact lt_irrefl _), if_neg (by rw [h2]; exact lt_irrefl _), if_pos h3]

theorem rhe_tie_odd {q : ℚ} {m : ℤ} (h1 : ⌊q⌋ = m) (h2 : q - m = 1 / 2)
    (h3 : m % 2 ≠ 0) : rhe q = m + 1 := by
  simp only [rhe]
  rw [h1, if_neg (by rw [h2]; exact lt_irrefl _), if_neg (by rw [h2]; exact lt_irrefl _), if_neg h3]

theorem pow10_ne_zero (d : ℤ) : ((10 : ℚ) ^ d) ≠ 0 :=
  zpow_ne_zero d (by norm_num)

theorem rhe10_of_mul_eq {q : ℚ} {d : ℤ} {m : ℤ} (h : q * 10 ^ d = (m : ℚ)) :
    rhe10 q d = (m : ℚ) / 10 ^ d := by
  unfold rhe10
  rw [h, rhe_intCast]

theorem rhe10_idem (q : ℚ) (d : ℤ) : rhe10 (rhe10 q d) d = rhe10 q d := by
  unfold rhe10
  rw [div_mul_cancel₀ _ (pow10_ne_zero d), rhe_intCast]

theorem rhe10_zero (d : ℤ) : rhe10 0 d = 0 := by
  unfold rhe10
  rw [zero_mul]
  rw [show ((0 : ℚ)) = ((0 : ℤ) : ℚ) by norm_num, rhe_intCast]
  norm_num

theorem rhe10_intCast (m : ℤ) (d : ℕ) : rhe10 (m : ℚ) (d : ℤ) = m := by
  unfold rhe10
  have h : (m : ℚ) * 10 ^ (d : ℤ) = ((m * 10 ^ d : ℤ) : ℚ) := by
    push_cast
    rw [zpow_natCast]
  rw [h, rhe_intCast]
  push_cast
  rw [zpow_natCast, mul_div_assoc, div_self (by positivity), mul_one]

theorem roundTo_idem (x : ExtFloat) (d : ℤ) :
    (x.roundTo d).roundTo d = x.roundTo d := by
  cases x <;> simp [ExtFloat.roundTo, rhe10_idem]

theorem roundTo_zero (d : ℤ) : (ExtFloat.fin 0).roundTo d = .fin 0 := by
  simp [ExtFloat.roundTo, rhe10_zero]

theorem eSum_map_fin (qs : List ℚ) : eSum (qs.map .fin) = .fin qs.sum := by
  induction qs with
  | nil => simp [eSum]
  | cons q qs ih =>
    simp only [List.map_cons, eSum, List.foldr_cons, List.sum_cons]
    have : eSum (qs.map .fin) = .fin qs.sum := ih
    rw [show List.foldr ExtFloat.add (ExtFloat.fin 0) (qs.map .fin) = eSum (qs.map .fin) from rfl, this]
    simp [ExtFloat.add]

theorem safe_round_pyNone (d : ℤ) : safe_round .pyNone d = .ok (.fin 0) := rfl

theorem safe_round_pyFloat (x : ExtFloat) (d : ℤ) :
    safe_round (.pyFloat x) d = .ok (x.roundTo d) := rfl

theorem safe_round_npScalar (x : ExtFloat) (d : ℤ) :
    safe_round (.npScalar x) d = .ok (x.roundTo d) := rfl

theorem safe_round_pyInt (n : ℤ) (d : ℤ) :
    safe_round (.pyInt n) d = (toFloat (.pyInt n)).map (fun x => x.roundTo d) := rfl

theorem safe_round_obj (d : ℤ) : safe_round .obj d = .ok (.fin 0) := rfl

theorem safe_round_pyStr_some (x : ExtFloat) (d : ℤ) :
    safe_round (.pyStr (some x)) d = .ok (x.roundTo d) := rfl

theorem safe_round_pyStr_none (d : ℤ) :
    safe_round (.pyStr Option.none) d = .ok (.fin 0) := rfl

theorem safe_round_ndarray (shape : List ℕ) (data : List ExtFloat) (d : ℤ) :
    safe_round (.ndarray shape data) d =
      if shape.prod = 0 then .ok (.fin 0)
      else if shape.prod = 1 then
        (item (.ndarray shape data)).map (fun x => x.roundTo d)
      else .ok ((eMean data).roundTo d) := rfl

theorem safe_round_tensor (data : List ExtFloat) (d : ℤ) :
    safe_round (.tensor data) d =
      if data.length = 1 then .ok (data.headI.roundTo d)
      else .ok ((eMean data).roundTo d) := by
  show itemBranch (.tensor data) d _ = _
  by_cases h : data.length = 1 <;>
    simp [itemBranch, hasItem, item, catchableVT, numberBranch, tensorBranch, h]

theorem eSum_fin_of_forall {data : List ExtFloat}
    (h : ∀ x ∈ data, ∃ q, x = .fin q) : ∃ s, eSum data = .fin s := by
  induction data with
  | nil => exact ⟨0, rfl⟩
  | cons a l ih =>
    obtain ⟨q, hq⟩ := h a (List.mem_cons_self a l)
    obtain ⟨s, hs⟩ := ih (fun x hx => h x (List.mem_cons_of_mem a hx))
    subst hq
    refine ⟨q + s, ?_⟩
    show ExtFloat.add (.fin q) (eSum l) = _
    rw [hs]
    rfl

theorem eMean_fin_of_forall {data : List ExtFloat} (hne : data ≠ [])
    (h : ∀ x ∈ data, ∃ q, x = .fin q) : ∃ s, eMean data = .fin s := by
  obtain ⟨s, hs⟩ := eSum_fin_of_forall h
  refine ⟨s / data.length, ?_⟩
  unfold eMean
  rw [if_neg (by simpa using List.length_pos.mpr hne |>.ne'), hs]
  rfl

theorem eMean_map_fin {qs : List ℚ} (hne : qs ≠ []) :
    eMean (qs.map .fin) = .fin (qs.sum / qs.length) := by
  unfold eMean
  rw [eSum_map_fin]
  rw [List.length_map]
  rw [if_neg (by simpa using List.length_pos.mpr hne |>.ne')]
  rfl

theorem safe_round_ok_rounded {v : PyVal} {d : ℤ} {r : ExtFloat}
    (h : safe_round v d = .ok r) : r.roundTo d = r := by
  cases v with
  | pyNone =>
    rw [safe_round_pyNone] at h
    cases h
    exact roundTo_zero d
  | pyInt n =>
    rw [safe_round_pyInt] at h
    have ht : toFloat (.pyInt n)
        = if n.natAbs < floatMaxBound then .ok (.fin n) else .error .overflowError := rfl
    rw [ht] at h
    by_cases hb : n.natAbs < floatMaxBound
    · rw [if_pos hb] at h
      simp only [Except.map] at h
      cases h
      exact roundTo_idem _ d
    · rw [if_neg hb] at h
      simp only [Except.map] at h
      exact Except.noConfusion h
  | pyFloat x =>
    rw [safe_round_pyFloat] at h
    cases h
    exact roundTo_idem x d
  | npScalar x =>
    rw [safe_round_npScalar] at h
    cases h
    exact roundTo_idem x d
  | ndarray shape data =>
    rw [safe_round_ndarray] at h
    split_ifs at h with h0 h1
    · cases h
      exact roundTo_zero d
    · simp only [item, if_pos h1, Except.map] at h
      cases h
      exact roundTo_idem _ d
    · cases h
      exact roundTo_idem _ d
  | tensor data =>
    rw [safe_round_tensor] at h
    split_ifs at h with h1
    · cases h
      exact roundTo_idem _ d
    · cases h
      exact roundTo_idem _ d
  | pyStr p =>
    cases p with
    | none =>
      rw [safe_round_pyStr_none] at h
      cases h
      exact roundTo_zero d
    | some x =>
      rw [safe_round_pyStr_some] at h
      cases h
      exact roundTo_idem x d
  | obj =>
    rw [safe_round_obj] at h
    cases h
    exact roundTo_zero d

theorem floor_val_1234 : ⌊(1234.56 : ℚ)⌋ = 1234 := by
  rw [Int.floor_eq_iff]
  norm_num

theorem rhe10_0123456 : rhe10 0.123456 4 = 0.1235 := by
  unfold rhe10
  have h : (0.123456 : ℚ) * 10 ^ (4 : ℤ) = 1234.56 := by norm_num
  rw [h, rhe_of_half_lt floor_val_1234 (by norm_num)]
  norm_num

theorem rhe10_092 : rhe10 0.92 4 = 0.92 := by
  rw [rhe10_of_mul_eq (m := 9200) (by norm_num)]
  norm_num

theorem rhe10_095 : rhe10 0.95 4 = 0.95 := by
  rw [rhe10_of_mul_eq (m := 9500) (by norm_num)]
  norm_num

theorem rhe10_tie_even_eval : rhe10 0.00005 4 = 0 := by
  unfold rhe10
  have h : (0.00005 : ℚ) * 10 ^ (4 : ℤ) = 0.5 := by norm_num
  have hf : ⌊(0.5 : ℚ)⌋ = 0 := by
    rw [Int.floor_eq_iff]
    norm_num
  rw [h, rhe_tie_even hf (by norm_num) (by norm_num)]
  norm_num

theorem rhe10_tie_odd_eval : rhe10 0.00015 4 = 0.0002 := by
  unfold rhe10
  have h : (0.00015 : ℚ) * 10 ^ (4 : ℤ) = 1.5 := by norm_num
  have hf : ⌊(1.5 : ℚ)⌋ = 1 := by
    rw [Int.floor_eq_iff]
    norm_num
  rw [h, rhe_tie_odd hf (by norm_num) (by norm_num)]
  norm_num

theorem toFloat_pyInt (n : ℤ) :
    toFloat (.pyInt n)
      = if n.natAbs < floatMaxBound then .ok (.fin n) else .error .overflowError := rfl

theorem item_ndarray (shape : List ℕ) (data : List ExtFloat) :
    item (.ndarray shape data)
      = if shape.prod = 1 then .ok data.headI else .error .valueError := rfl

theorem one_lt_floatMaxBound : (1 : ℤ).natAbs < floatMaxBound := by
  show 1 < 2 ^ 1024
  exact Nat.one_lt_two_pow_iff.mpr (by norm_num)

/-- Claim C1, counterexample: `safe_round` DOES raise on at least one input:
a Python `int` at the double-overflow threshold reaches the unguarded
`round(float(value), decimals)` of the `isinstance(value, (int, float))`
branch, and `float(2 ** 1024)` raises `OverflowError`, which no handler in
the function catches. -/
theorem safe_round_huge_int_raises :
    safe_round (.pyInt (2 ^ 1024)) 4 = .error .overflowError := by
  have hb : ¬ ((2 : ℤ) ^ 1024).natAbs < floatMaxBound := by
    rw [Int.natAbs_pow]
    exact lt_irrefl _
  rw [safe_round_pyInt, toFloat_pyInt, if_neg hb]
  rfl

/-- Claim C1 (amended): for every input except an integer beyond the
double range, `safe_round` terminates normally with an `.ok` float; and
an input reaching the final fallback that is not convertible to a float
(a non-numeric object, a string that fails to parse) yields `0.0`. -/
theorem safe_round_never_raises_in_range (v : PyVal) (d : ℤ) (h : intInRange v) :
    (∃ r, safe_round v d = .ok r) ∧
      safe_round .obj d = .ok (.fin 0) ∧
      safe_round (.pyStr Option.none) d = .ok (.fin 0) := by
  refine ⟨?_, safe_round_obj d, safe_round_pyStr_none d⟩
  cases v with
  | pyNone => exact ⟨_, safe_round_pyNone d⟩
  | pyInt n =>
    have hb : n.natAbs < floatMaxBound := h
    refine ⟨(ExtFloat.fin n).roundTo d, ?_⟩
    rw [safe_round_pyInt, toFloat_pyInt, if_pos hb]
    rfl
  | pyFloat x => exact ⟨_, safe_round_pyFloat x d⟩
  | npScalar x => exact ⟨_, safe_round_npScalar x d⟩
  | ndarray shape data =>
    rw [safe_round_ndarray]
    by_cases h0 : shape.prod = 0
    · rw [if_pos h0]
      exact ⟨_, rfl⟩
    · by_cases h1 : shape.prod = 1
      · rw [if_neg h0, if_pos h1, item_ndarray, if_pos h1]
        exact ⟨_, rfl⟩
      · rw [if_neg h0, if_neg h1]
        exact ⟨_, rfl⟩
  | tensor data =>
    rw [safe_round_tensor]
    by_cases h1 : data.length = 1
    · rw [if_pos h1]
      exact ⟨_, rfl⟩
    · rw [if_neg h1]
      exact ⟨_, rfl⟩
  | pyStr p =>
    cases p with
    | none => exact ⟨_, safe_round_pyStr_none d⟩
    | some x => exact ⟨_, safe_round_pyStr_some x d⟩
  | obj => exact ⟨_, safe_round_obj d⟩

/-- Witness for the amended C1 theorem at a concrete multi-element tensor. -/
theorem safe_round_never_raises_in_range_witness :
    ∃ r, safe_round (.tensor [.fin 1, .fin 2, .fin 3]) 4 = .ok r :=
  (safe_round_never_raises_in_range (.tensor [.fin 1, .fin 2, .fin 3]) 4 trivial).1

/-- Claim C2, counterexample: a NaN scalar is returned as NaN, and an
infinite array element propagates to an infinite mean — the result is not
always finite. -/
theorem safe_round_nan_propagates :
    safe_round (.pyFloat .nan) 4 = .ok .nan ∧
      safe_round (.ndarray [2] [.fin 1, .inf false]) 4 = .ok (.inf false) :=
  ⟨rfl, rfl⟩

/-- Claim C2 (amended): when every numeric component of the input is
finite (no NaN/infinity, int within double range, tensor non-empty,
array shape consistent with its data), the result is a finite float. -/
theorem safe_round_finite_on_finite_content (v : PyVal) (d : ℤ)
    (h : finiteContent v) : ∃ q : ℚ, safe_round v d = .ok (.fin q) := by
  cases v with
  | pyNone => exact ⟨0, safe_round_pyNone d⟩
  | pyInt n =>
    have hb : n.natAbs < floatMaxBound := h
    refine ⟨rhe10 n d, ?_⟩
    rw [safe_round_pyInt, toFloat_pyInt, if_pos hb]
    rfl
  | pyFloat x =>
    obtain ⟨q, rfl⟩ := h
    exact ⟨rhe10 q d, safe_round_pyFloat _ d⟩
  | npScalar x =>
    obtain ⟨q, rfl⟩ := h
    exact ⟨rhe10 q d, safe_round_npScalar _ d⟩
  | ndarray shape data =>
    obtain ⟨hwf, hfin⟩ := h
    rw [safe_round_ndarray]
    by_cases h0 : shape.prod = 0
    · exact ⟨0, by rw [if_pos h0]⟩
    · by_cases h1 : shape.prod = 1
      · have hlen : data.length = 1 := by rw [← hwf, h1]
        obtain ⟨a, rfl⟩ := List.length_eq_one.mp hlen
        obtain ⟨q, rfl⟩ := hfin a (by simp)
        refine ⟨rhe10 q d, ?_⟩
        rw [if_neg h0, if_pos h1, item_ndarray, if_pos h1]
        rfl
      · have hne : data ≠ [] := by
          intro hd
          exact h0 (by rw [hwf, hd]; rfl)
        obtain ⟨s, hs⟩ := eMean_fin_of_forall hne hfin
        refine ⟨rhe10 s d, ?_⟩
        rw [if_neg h0, if_neg h1, hs]
        rfl
  | tensor data =>
    obtain ⟨hne, hfin⟩ := h
    rw [safe_round_tensor]
    by_cases h1 : data.length = 1
    · obtain ⟨a, rfl⟩ := List.length_eq_one.mp h1
      obtain ⟨q, rfl⟩ := hfin a (by simp)
      exact ⟨rhe10 q d, by rw [if_pos h1]; rfl⟩
    · obtain ⟨s, hs⟩ := eMean_fin_of_forall hne hfin
      exact ⟨rhe10 s d, by rw [if_neg h1, hs]; rfl⟩
  | pyStr p =>
    cases p with
    | none => exact ⟨0, safe_round_pyStr_none d⟩
    | some x =>
      obtain ⟨q, rfl⟩ := h x rfl
      exact ⟨rhe10 q d, safe_round_pyStr_some _ d⟩
  | obj => exact ⟨0, safe_round_obj d⟩

/-- Witness for the amended C2 theorem at a concrete finite scalar. -/
theorem safe_round_finite_on_finite_content_witness :
    ∃ q : ℚ, safe_round (.pyFloat (.fin 0.95)) 4 = .ok (.fin q) :=
  safe_round_finite_on_finite_content (.pyFloat (.fin 0.95)) 4 ⟨0.95, rfl⟩

/-- Claim C3: a non-empty array maps to the rounded arithmetic mean of
its elements (so a one-element array maps to its rounded element), and
the spec example evaluates to `0.92`. -/
theorem safe_round_arraylike_mean :
    (∀ (shape : List ℕ) (qs : List ℚ) (d : ℤ),
        shape.prod = qs.length → 1 ≤ qs.length →
        safe_round (.ndarray shape (qs.map .fin)) d
          = .ok (.fin (rhe10 (qs.sum / qs.length) d))) ∧
      safe_round (.ndarray [3] [.fin 0.95, .fin 0.89, .fin 0.92]) 4
        = .ok (.fin 0.92) := by
  constructor
  · intro shape qs d hwf hlen
    rw [safe_round_ndarray]
    by_cases h1 : qs.length = 1
    · obtain ⟨q, rfl⟩ := List.length_eq_one.mp h1
      rw [if_neg (by rw [hwf]; simp), if_pos (by rw [hwf]; rfl), item_ndarray,
        if_pos (by rw [hwf]; rfl)]
      simp [ExtFloat.roundTo, Except.map]
    · have hne : qs ≠ [] := by
        intro hq
        rw [hq] at hlen
        exact absurd hlen (by norm_num)
      rw [if_neg (by rw [hwf]; omega), if_neg (by rw [hwf]; exact h1),
        eMean_map_fin hne]
      rfl
  · rw [safe_round_ndarray, if_neg (by decide), if_neg (by decide)]
    have hm : eMean [ExtFloat.fin 0.95, .fin 0.89, .fin 0.92]
        = .fin ((0.95 + (0.89 + (0.92 + 0))) / ((3 : ℕ) : ℚ)) := rfl
    rw [hm, show ((0.95 : ℚ) + (0.89 + (0.92 + 0))) / ((3 : ℕ) : ℚ) = 0.92 by norm_num]
    rw [show (ExtFloat.fin (0.92 : ℚ)).roundTo 4 = .fin (rhe10 0.92 4) from rfl, rhe10_092]

/-- Witness for C3 at a concrete two-element array. -/
theorem safe_round_arraylike_mean_witness :
    safe_round (.ndarray [2] ([(1 : ℚ), 3].map .fin)) 4
      = .ok (.fin (rhe10 (([(1 : ℚ), 3].sum / ([(1 : ℚ), 3].length : ℚ))) 4)) :=
  safe_round_arraylike_mean.1 [2] [1, 3] 4 rfl (by norm_num)

/-- Claim C4: `Absent` (None) and an empty array both normalize to `0.0`,
for every value of `decimals`. -/
theorem safe_round_absent_and_empty :
    (∀ d : ℤ, safe_round .pyNone d = .ok (.fin 0)) ∧
      ∀ (shape : List ℕ) (d : ℤ), shape.prod = 0 →
        safe_round (.ndarray shape []) d = .ok (.fin 0) :=
  ⟨fun d => safe_round_pyNone d,
    fun _ d h => by rw [safe_round_ndarray, if_pos h]⟩

/-- Witness for C4 at the empty one-dimensional array with `decimals = 7`. -/
theorem safe_round_absent_and_empty_witness :
    safe_round (.ndarray [0] []) 7 = .ok (.fin 0) :=
  safe_round_absent_and_empty.2 [0] 7 rfl

/-- Claim C5: scalar inputs are rounded half-to-even to `decimals`
digits: floats round exactly, in-range ints coerce and round,
`safe_round(1) = 1.0`, `safe_round(0.123456, 4) = 0.1235`, and the two
tie cases document the half-to-even convention. -/
theorem safe_round_scalar_rounding :
    (∀ (q : ℚ) (d : ℤ), safe_round (.pyFloat (.fin q)) d = .ok (.fin (rhe10 q d))) ∧
      (∀ n d : ℤ, n.natAbs < floatMaxBound →
        safe_round (.pyInt n) d = .ok (.fin (rhe10 (n : ℚ) d))) ∧
      safe_round (.pyInt 1) 4 = .ok (.fin 1) ∧
      safe_round (.pyFloat (.fin 0.123456)) 4 = .ok (.fin 0.1235) ∧
      safe_round (.pyFloat (.fin 0.00005)) 4 = .ok (.fin 0) ∧
      safe_round (.pyFloat (.fin 0.00015)) 4 = .ok (.fin 0.0002) := by
  have hq : ∀ (q : ℚ) (d : ℤ),
      safe_round (.pyFloat (.fin q)) d = .ok (.fin (rhe10 q d)) :=
    fun q d => safe_round_pyFloat (.fin q) d
  have hn : ∀ n d : ℤ, n.natAbs < floatMaxBound →
      safe_round (.pyInt n) d = .ok (.fin (rhe10 (n : ℚ) d)) := by
    intro n d h
    rw [safe_round_pyInt, toFloat_pyInt, if_pos h]
    rfl
  refine ⟨hq, hn, ?_, ?_, ?_, ?_⟩
  · rw [hn 1 4 one_lt_floatMaxBound]
    have h14 : rhe10 ((1 : ℤ) : ℚ) (4 : ℤ) = ((1 : ℤ) : ℚ) := rhe10_intCast 1 4
    rw [h14]
    norm_num
  · rw [hq 0.123456 4, rhe10_0123456]
  · rw [hq 0.00005 4, rhe10_tie_even_eval]
  · rw [hq 0.00015 4, rhe10_tie_odd_eval]

/-- Witness for the int part of C5 at `n = 1`. -/
theorem safe_round_scalar_rounding_witness :
    safe_round (.pyInt 1) 4 = .ok (.fin (rhe10 ((1 : ℤ) : ℚ) 4)) :=
  safe_round_scalar_rounding.2.1 1 4 one_lt_floatMaxBound

/-- Claim C6: normalization is idempotent — feeding any successful
output back in as a scalar returns it unchanged. -/
theorem safe_round_idempotent (v : PyVal) (d : ℤ) (r : ExtFloat)
    (h : safe_round v d = .ok r) : safe_round (.pyFloat r) d = .ok r := by
  rw [safe_round_pyFloat, safe_round_ok_rounded h]

/-- Witness for C6: re-normalizing the output for the `None` input. -/
theorem safe_round_idempotent_witness :
    safe_round (.pyFloat (.fin 0)) 4 = .ok (.fin 0) :=
  safe_round_idempotent .pyNone 4 (.fin 0) (safe_round_pyNone 4)

/-- Claim C7: the normalizer of `validate_models.py` and `safe_round_v2`
of `quick_debug.py` agree on every input and every `decimals`. -/
theorem safe_round_eq_safe_round_v2 (v : PyVal) (d : ℤ) :
    safe_round v d = safe_round_v2 v d := by
  cases v <;> rfl

/-- Claim C8: the naive `safe_round_v1` raises `ValueError` on every
array of two or more elements, while scalars and single-element arrays
succeed. -/
theorem safe_round_v1_raises_on_multi :
    (∀ (shape : List ℕ) (data : List ExtFloat) (d : ℤ),
        shape.prod = data.length → 2 ≤ data.length →
        safe_round_v1 (.ndarray shape data) d = .error .valueError) ∧
      (∀ (x : ExtFloat) (d : ℤ), safe_round_v1 (.pyFloat x) d = .ok (x.roundTo d)) ∧
      (∀ (x : ExtFloat) (d : ℤ), safe_round_v1 (.npScalar x) d = .ok (x.roundTo d)) ∧
      ∀ (x : ExtFloat) (d : ℤ),
        safe_round_v1 (.ndarray [1] [x]) d = .ok (x.roundTo d) := by
  refine ⟨?_, fun x d => rfl, fun x d => rfl, fun x d => rfl⟩
  intro shape data d hwf h2
  have hv : safe_round_v1 (.ndarray shape data) d
      = (item (.ndarray shape data)).map (fun x => x.roundTo d) := rfl
  rw [hv, item_ndarray, if_neg (by rw [hwf]; omega)]
  rfl

/-- Witness for C8 at a concrete two-element array. -/
theorem safe_round_v1_raises_on_multi_witness :
    safe_round_v1 (.ndarray [2] [.fin 1, .fin 2]) 4 = .error .valueError :=
  safe_round_v1_raises_on_multi.1 [2] [.fin 1, .fin 2] 4 rfl (by norm_num)

/-- Claim C9: a zero-dimensional array (shape `[]`, size 1) returns its
single value rounded, exactly as a one-element one-dimensional array does. -/
theorem safe_round_zero_dim_array (x : ExtFloat) (d : ℤ) :
    safe_round (.ndarray [] [x]) d = .ok (x.roundTo d) ∧
      safe_round (.ndarray [] [x]) d = safe_round (.ndarray [1] [x]) d :=
  ⟨rfl, rfl⟩

/-- Claim C10: a string that parses as a float is rounded and returned by
the final fallback; a string that fails to parse yields `0.0`. -/
theorem safe_round_string_fallback :
    (∀ (q : ℚ) (d : ℤ),
        safe_round (.pyStr (some (.fin q))) d = .ok (.fin (rhe10 q d))) ∧
      (∀ (x : ExtFloat) (d : ℤ), safe_round (.pyStr (some x)) d = .ok (x.roundTo d)) ∧
      safe_round (.pyStr (some (.fin 0.95))) 4 = .ok (.fin 0.95) ∧
      ∀ d : ℤ, safe_round (.pyStr Option.none) d = .ok (.fin 0) := by
  refine ⟨fun q d => rfl, fun x d => rfl, ?_, fun d => rfl⟩
  rw [safe_round_pyStr_some]
  rw [show (ExtFloat.fin (0.95 : ℚ)).roundTo 4 = .fin (rhe10 0.95 4) from rfl, rhe10_095]

end MAD
